import Mathlib

/-!
Verification of the concurrent-queue / parallel-algorithm library.

Each C++ component named in the claims is shallowly embedded as a Lean
definition over lists and naturals; mutexes and condition variables only
serialize the operations, so each operation is modelled as the pure state
transformer it performs under its lock.
-/

/-- Exception classes thrown by the library.  `invalid_argument` models
`std::invalid_argument`, `logic_error` models its base class
`std::logic_error`, `runtime_error` models `std::runtime_error`. -/
inductive CppExc where
  | invalid_argument : String → CppExc
  | logic_error : String → CppExc
  | runtime_error : String → CppExc
deriving DecidableEq

/-- Whether a constructor call succeeded. -/
def exceptIsOk : Except CppExc β → Bool
  | Except.ok _ => true
  | Except.error _ => false

/-! ## BatchQueue (src/src/utilities.cpp)

`buffer_` is the contiguous buffer, `max_batch_size` the construction
parameter `max_batch_size_`.  The mutex and condition variable serialize
operations and are not part of the data state. -/

structure BatchQueue (α : Type) where
  buffer : List α
  max_batch_size : Nat

/-- `BatchQueue::extract_batch` (utilities.cpp lines 129-148): if the buffer
is empty return an empty vector; otherwise move the first
`min(buffer_.size(), max_batch_size_)` elements out and erase them. -/
def BatchQueue.extract_batch (s : BatchQueue α) : List α × BatchQueue α :=
  if s.buffer.isEmpty then ([], s)
  else
    let tk := min s.buffer.length s.max_batch_size
    (s.buffer.take tk, { s with buffer := s.buffer.drop tk })

/-- `BatchQueue::try_batch_pop` (utilities.cpp lines 92-96): lock, then
`extract_batch`. -/
def BatchQueue.try_batch_pop (s : BatchQueue α) : List α × BatchQueue α :=
  s.extract_batch

/-- `BatchQueue::batch_pop` (utilities.cpp lines 82-89): wait up to
`max_wait_time_` for the buffer to become non-empty, then `extract_batch`.
The timed wait only delays the call, so after the wait ends the state
transformation is exactly `extract_batch` of the buffer seen then. -/
def BatchQueue.batch_pop (s : BatchQueue α) : List α × BatchQueue α :=
  s.extract_batch

/-- `BatchQueue::batch_pop_for` (utilities.cpp lines 99-104): wait up to the
given duration, then `extract_batch`. -/
def BatchQueue.batch_pop_for (s : BatchQueue α) (_wait_ms : Nat) : List α × BatchQueue α :=
  s.extract_batch

/-! ## ThreadSafePriorityQueue (src/include/thread_safe_priority_queue.h)

Only the fields read by the claims are modelled: the heap contents, the
capacity `max_size_`, and the `is_bounded_` flag. -/

structure ThreadSafePriorityQueue (α : Type) where
  heap : List α
  max_size : Nat
  is_bounded : Bool

/-- The default constructor (lines 26-29): unbounded queue. -/
def ThreadSafePriorityQueue.unbounded (α : Type) : ThreadSafePriorityQueue α :=
  ⟨[], 0, false⟩

/-- The bounded constructor `ThreadSafePriorityQueue(size_t max_size)`
(lines 32-39): throws `std::invalid_argument` when `max_size == 0`. -/
def ThreadSafePriorityQueue.construct_bounded (α : Type) (max_size : Nat) :
    Except CppExc (ThreadSafePriorityQueue α) :=
  if max_size = 0 then
    Except.error (CppExc.invalid_argument "Bounded queue must have max_size > 0")
  else
    Except.ok ⟨[], max_size, true⟩

/-- `ThreadSafePriorityQueue::remaining_capacity` (lines 212-220): throws
`std::logic_error` when the queue is unbounded, otherwise returns
`max_size_ - queue_.size()`. -/
def ThreadSafePriorityQueue.remaining_capacity (s : ThreadSafePriorityQueue α) :
    Except CppExc Nat :=
  if s.is_bounded = false then
    Except.error (CppExc.logic_error "Only bounded queue supports remaining_capacity()")
  else
    Except.ok (s.max_size - s.heap.length)

/-! ## BoundedThreadSafeQueue (src/unnamed/part_005)

The wrapper holds an underlying queue (modelled by its element list), the
capacity `max_size_` and the counter `current_size_`. -/

structure BoundedThreadSafeQueue (α : Type) where
  inner : List α
  max_size : Nat
  current_size : Nat

/-- The constructor `BoundedThreadSafeQueue(size_t max_size)` (part_005
lines 16-23): throws `std::invalid_argument` when `max_size == 0`. -/
def BoundedThreadSafeQueue.construct (α : Type) (max_size : Nat) :
    Except CppExc (BoundedThreadSafeQueue α) :=
  if max_size = 0 then
    Except.error (CppExc.invalid_argument "Max size must be greater than 0")
  else
    Except.ok ⟨[], max_size, 0⟩

/-- `BoundedThreadSafeQueue::try_pop(T&)` (part_005 lines 89-104): if
`current_size_ == 0` return `false` without touching the out-parameter;
otherwise forward to the underlying queue and decrement the counter on
success.  The result triple is (return value, out-parameter after the
call, queue state after the call). -/
def BoundedThreadSafeQueue.try_pop_ref (s : BoundedThreadSafeQueue α) (value : α) :
    Bool × α × BoundedThreadSafeQueue α :=
  if s.current_size = 0 then (false, value, s)
  else
    match s.inner with
    | [] => (false, value, s)
    | x :: rest => (true, x, { s with inner := rest, current_size := s.current_size - 1 })

/-! ## Coarse FIFO (src/include/threadsafequeue.h, class ThreadSafeQueue)

One mutex protects a `std::queue<T>`; the state is the element sequence. -/

structure CoarseQueue (α : Type) where
  queue : List α

/-- Coarse `ThreadSafeQueue::push` (threadsafequeue.h lines 74-80). -/
def CoarseQueue.push (s : CoarseQueue α) (value : α) : CoarseQueue α :=
  ⟨s.queue ++ [value]⟩

/-- Coarse `ThreadSafeQueue::try_pop(T&)` (threadsafequeue.h lines 83-92):
empty queue returns `false` and leaves the out-parameter untouched. -/
def CoarseQueue.try_pop_ref (s : CoarseQueue α) (value : α) :
    Bool × α × CoarseQueue α :=
  match s.queue with
  | [] => (false, value, s)
  | x :: rest => (true, x, ⟨rest⟩)

/-! ## Linked FIFO with sentinel
(src/include/thread_safe_queue/threadsafe_linked_queue.h,
namespace ThreadSafeQueueLinkedList)

The sentinel head node has id `0`; `nodes` lists the data nodes after the
sentinel in chain order, each with the id the C++ node pointer stands for;
`tailId` is the id of the node the raw pointer `tail_` points at, and
`nextId` supplies fresh node ids. -/

structure LinkedQueue (α : Type) where
  nodes : List (Nat × α)
  tailId : Nat
  nextId : Nat

/-- The constructor: only the sentinel exists and `tail_` points at it. -/
def LinkedQueue.init (α : Type) : LinkedQueue α := ⟨[], 0, 1⟩

/-- `ThreadSafeQueueLinkedList::ThreadSafeQueue::push` (lines 32-42):
splice a fresh node after `tail_` and advance `tail_` to it. -/
def LinkedQueue.push (s : LinkedQueue α) (value : α) : LinkedQueue α :=
  ⟨s.nodes ++ [(s.nextId, value)], s.nextId, s.nextId + 1⟩

/-- `try_pop()` returning `shared_ptr` (lines 44-68): unlink the first data
node; when the queue becomes empty, reset `tail_` to the sentinel. -/
def LinkedQueue.try_pop (s : LinkedQueue α) : Option α × LinkedQueue α :=
  match s.nodes with
  | [] => (none, s)
  | (_, v) :: rest =>
      (some v, ⟨rest, if rest.isEmpty then 0 else s.tailId, s.nextId⟩)

/-- `try_pop(T&)` (lines 70-89): unlink the first data node and move its
data out.  Unlike the `shared_ptr` form, this overload does NOT reset
`tail_` when the queue becomes empty. -/
def LinkedQueue.try_pop_ref (s : LinkedQueue α) (value : α) :
    Bool × α × LinkedQueue α :=
  match s.nodes with
  | [] => (false, value, s)
  | (_, v) :: rest => (true, v, ⟨rest, s.tailId, s.nextId⟩)

/-- The data-model invariant of the linked FIFO (spec section 3): the queue
is empty exactly when the sentinel has no successor, and then `tail_`
points back at the sentinel (id 0). -/
def LinkedQueue.invariant (s : LinkedQueue α) : Prop :=
  s.nodes = [] → s.tailId = 0

/-! ## Segment of the segmented FIFO (src/unnamed/part_008, lines 12-59)

A segment is a fixed ring of `SEGMENT_SIZE` slots with cursors `start` and
`end` (named `endIdx` here because `end` is a Lean keyword).  One slot is
kept free to distinguish a full ring from an empty one. -/

structure Segment (α : Type) where
  segment_size : Nat
  buffer : Nat → α
  start : Nat
  endIdx : Nat

/-- `Segment::empty`: `start == end`. -/
def Segment.emptyb (s : Segment α) : Bool :=
  s.start == s.endIdx

/-- `Segment::full`: `(end + 1) % SEGMENT_SIZE == start`. -/
def Segment.fullb (s : Segment α) : Bool :=
  (s.endIdx + 1) % s.segment_size == s.start

/-- `Segment::push` (part_008 lines 27-33): fail when full, otherwise write
at `end` and advance `end` modulo `SEGMENT_SIZE`. -/
def Segment.push (s : Segment α) (val : α) : Bool × Segment α :=
  if s.fullb then (false, s)
  else
    (true, { s with
      buffer := fun j => if j = s.endIdx then val else s.buffer j,
      endIdx := (s.endIdx + 1) % s.segment_size })

/-- `Segment::size` (part_008 lines 54-58). -/
def Segment.size (s : Segment α) : Nat :=
  if s.start ≤ s.endIdx then s.endIdx - s.start
  else (s.segment_size - s.start) + s.endIdx

/-! ## Sequential and parallel accumulate
(src/include/parallel_algorithm/accumulate.h)

Iterator ranges become lists; `std::accumulate` and `my_accumulate` are
both the left fold. -/

/-- `my_accumulate(first, last, init, op)` (accumulate.h lines 131-139):
the sequential left fold. -/
def my_accumulate (l : List α) (init : α) (op : α → α → α) : α :=
  l.foldl op init

/-- `parallel_accumulate(first, last, init, op)` (accumulate.h lines
169-221).  `hc` stands for `std::thread::hardware_concurrency()`.  Each of
the `num_threads` blocks is folded from the identity-trait value
`identity` (`identity_element<BinaryOp, T>::get()`); with a single thread
the code returns `results[0]` directly, otherwise it folds the partial
results from `init`. -/
def parallel_accumulate (hc : Nat) (l : List α) (init : α) (op : α → α → α)
    (identity : α) : α :=
  let length := l.length
  if length = 0 then init
  else
    let min_per_thread := 25
    let max_threads := (length + min_per_thread - 1) / min_per_thread
    let num_threads := min max_threads hc
    if num_threads = 0 then init
    else
      let block_size := length / num_threads
      let results := (List.range num_threads).map (fun i =>
        let block_start := i * block_size
        let block :=
          if i = num_threads - 1 then l.drop block_start
          else (l.drop block_start).take block_size
        block.foldl op identity)
      if results.length = 1 then results.headD init
      else results.foldl op init

/-- The `num_threads` overload `parallel_accumulate(first, last, init, op,
num_threads)` (accumulate.h lines 233-287).  Each block is folded from
`T()` (modelled by `tdefault`), then the local results are folded from
`init`. -/
def parallel_accumulate_threads (num_threads hc : Nat) (l : List α) (init : α)
    (op : α → α → α) (tdefault : α) : α :=
  let total_elements := l.length
  if total_elements = 0 then init
  else
    let nt := if num_threads = 0 then 1 else num_threads
    let nt := min nt total_elements
    let effective_threads := min nt hc
    let block_size := total_elements / effective_threads
    let local_results := (List.range effective_threads).map (fun i =>
      let block_start := i * block_size
      let block :=
        if i = effective_threads - 1 then l.drop block_start
        else (l.drop block_start).take block_size
      block.foldl op tdefault)
    local_results.foldl op init

/-! ## Prefix scan (src/include/parallel_algorithm/prefix_sum.h) -/

/-- The inclusive-scan step: given the running value `acc`, emit
`op acc x` for each element. -/
def scanStep (op : α → α → α) (acc : α) : List α → List α
  | [] => []
  | x :: xs =>
      let v := op acc x
      v :: scanStep op v xs

/-- `compute_prefix(arr, op, identity)` (prefix_sum.h lines 15-35):
`prefix[0] = identity`, `prefix[i+1] = op(prefix[i], arr[i])`.  The null
check on `op` cannot fire in the model because `op` is a total function. -/
def compute_prefix (arr : List α) (op : α → α → α) (identity : α) : List α :=
  identity :: scanStep op identity arr

/-- `sequential_prefix(arr, op, identity)` (prefix_sum.h lines 162-170):
textually the same loop as `compute_prefix`. -/
def sequential_prefix (arr : List α) (op : α → α → α) (identity : α) : List α :=
  identity :: scanStep op identity arr

/-- The per-block local scan of `parallel_prefix`: `data[0] = arr[start]`,
`data[i] = op(data[i-1], arr[start+i])`. -/
def blockScan (op : α → α → α) : List α → List α
  | [] => []
  | x :: xs => x :: scanStep op x xs

/-- `parallel_prefix(arr, op, identity)` (prefix_sum.h lines 65-159).
`hc` stands for `std::thread::hardware_concurrency()`.  The range is cut
into `num_threads` blocks of `block_size = ceil(n / num_threads)`; each
block gets the inclusive scan seeded with its first element; block sums
are prefix-combined into offsets (step 4); the fix-up (step 5) maps each
element `x` of block `i ≥ 1` to `op(x, offset_{i-1})`, with the offset as
the SECOND operand, exactly as in line 149-151 of the source. -/
def parallel_prefix (hc : Nat) (arr : List α) (op : α → α → α) (identity : α) :
    List α :=
  if arr.isEmpty then [identity]
  else
    let n := arr.length
    let nt0 := if hc = 0 then 2 else hc
    let min_per_thread := 32
    let max_threads := (n + min_per_thread - 1) / min_per_thread
    let num_threads := min nt0 max_threads
    let block_size := (n + num_threads - 1) / num_threads
    let blocks := (List.range num_threads).filterMap (fun i =>
      let block_start := i * block_size
      if block_start < n then some ((arr.drop block_start).take block_size)
      else none)
    let locals := blocks.map (blockScan op)
    let sums := locals.map (fun b => b.getLastD identity)
    let offsets := blockScan op sums
    match locals with
    | [] => [identity]
    | first :: rest =>
        identity :: (first ++
          (List.zip rest offsets).foldr
            (fun (p : List α × α) acc => p.1.map (fun x => op x p.2) ++ acc) [])

/-! ## Merge sort (src/include/parallel_algorithm/merge_sort.h)

Pointer ranges become lists; the ping-pong buffer disappears because the
final `std::copy` writes the merged run back over `[first, last)`.  The
comparator `comp` is the strict-weak-order `Compare` argument
(`SafeComparator<T>` instantiates it with `a < b`). -/

/-- `merge(first, mid, last, buffer, comp)` (merge_sort.h lines 90-112):
while both runs are non-empty take the left element when
`!comp(*right, *left)` — ties go to the left half — then append the
remainder of either run. -/
def merge (comp : α → α → Bool) : List α → List α → List α
  | [], ys => ys
  | xs, [] => xs
  | x :: xs, y :: ys =>
      if comp y x = false then x :: merge comp xs (y :: ys)
      else y :: merge comp (x :: xs) ys
termination_by xs ys => xs.length + ys.length

/-- `merge_sort(T* first, T* last, T* buffer, Compare comp)` (merge_sort.h
lines 78-87): ranges of length at most one stay as they are; otherwise
recurse on the two halves split at `n / 2` and merge. -/
def merge_sort (comp : α → α → Bool) (l : List α) : List α :=
  if l.length ≤ 1 then l
  else
    let mid := l.length / 2
    merge comp ( merge_sort comp (l.take mid)) ( merge_sort comp (l.drop mid))
termination_by l.length
decreasing_by
  · simp only [List.length_take]
    omega
  · simp only [List.length_drop]
    omega

/-- `merge_sort_serial` (merge_sort.h lines 141-151): the same recursion as
`merge_sort(T*, T*, T*, Compare)`, kept as the sequential fallback of the
parallel sort; its body is textually identical. -/
def merge_sort_serial (comp : α → α → Bool) (l : List α) : List α :=
  merge_sort comp l

/-- Two elements are equivalent under the strict weak order `comp` when
neither is strictly less than the other. -/
def eqvB (comp : α → α → Bool) (a b : α) : Bool :=
  !comp a b && !comp b a

/-! ## Hierarchical priority queue (src/unnamed/part_004)

Element type `Nat` with the default comparator `std::less`, so every heap
is a max-heap; a `std::priority_queue` is modelled by its element list with
`top` = the maximum.  Thread ids become naturals.  The claims concern the
serialized effect of the operations, so each operation is the pure state
transformer performed under the locks it takes. -/

/-- `std::priority_queue::top` on a max-heap: the maximum element. -/
def pqTop : List Nat → Option Nat
  | [] => none
  | x :: xs => some (xs.foldl max x)

/-- `std::priority_queue::pop`: remove one occurrence of the maximum. -/
def pqPop (l : List Nat) : List Nat :=
  match pqTop l with
  | none => []
  | some t => l.erase t

/-- `std::priority_queue::push`. -/
def pqPush (l : List Nat) (x : Nat) : List Nat :=
  x :: l

/-- `ThreadLocalQueue` (part_004): a worker-local heap with its owner id
and the `is_non_empty` atomic flag. -/
structure ThreadLocalQueue where
  owner_id : Nat
  queue : List Nat
  is_non_empty : Bool
deriving DecidableEq

/-- `ThreadLocalQueue::try_pop` (part_004 lines 398-416): empty heap
clears the flag and yields nothing; otherwise pop the top and clear the
flag when the heap has been drained. -/
def ThreadLocalQueue.try_pop (q : ThreadLocalQueue) : Option Nat × ThreadLocalQueue :=
  match pqTop q.queue with
  | none => (none, { q with is_non_empty := false })
  | some t =>
      let rest := pqPop q.queue
      (some t,
        { q with
          queue := rest
          is_non_empty := if rest = [] then false else q.is_non_empty })

/-- The loop of `ThreadLocalQueue::steal` (part_004 lines 428-434): while
fewer than `max_steal` elements are taken and the heap is non-empty, push
the victim top onto `target` and pop.  Returns (stolen count, victim heap
after, target after). -/
def stealLoop : Nat → List Nat → List Nat → Nat × List Nat × List Nat
  | 0, heap, target => (0, heap, target)
  | k + 1, heap, target =>
      match pqTop heap with
      | none => (0, heap, target)
      | some t =>
          let r := stealLoop k (pqPop heap) (pqPush target t)
          (r.1 + 1, r.2.1, r.2.2)

/-- `ThreadLocalQueue::steal` (part_004 lines 419-442). -/
def ThreadLocalQueue.steal (q : ThreadLocalQueue) (target : List Nat)
    (max_steal : Nat) : Nat × ThreadLocalQueue × List Nat :=
  if q.queue = [] then (0, { q with is_non_empty := false }, target)
  else
    let r := stealLoop max_steal q.queue target
    (r.1,
      { q with
        queue := r.2.1
        is_non_empty := if r.2.1 = [] then false else q.is_non_empty },
      r.2.2)

/-- The shared state of `HierarchicalPriorityQueue` as seen by one calling
thread: its id, its thread-local heap (`local_queue_`), the global heap,
the registry of the other threads' local heaps, and the owner ids currently
in `non_empty_local_queues_`. -/
structure HierarchicalPriorityQueue where
  caller_id : Nat
  caller_local : Option ThreadLocalQueue
  global_queue : List Nat
  locals : List ThreadLocalQueue
  non_empty_ids : List Nat
deriving DecidableEq

/-- The candidate loop of `HierarchicalPriorityQueue::steal_from_others`
(part_004 lines 833-878).  `stolen` is the OUTER counter declared at line
841 (`std::size_t stolen = 0;`); the call at line 845 declares a NEW inner
`stolen` inside the block, so the outer one that the `if (stolen > 0)`
test reads stays 0 and the branch that would return the stolen top is
never taken — the loop drains every victim into the temporary heap
`stolen_elements` and finally drops it. -/
def stealGo (caller_id max_steal : Nat) :
    List Nat → List Nat → List ThreadLocalQueue →
    Option Nat × List Nat × List ThreadLocalQueue
  | [], stolen_elements, locals => (none, stolen_elements, locals)
  | owner :: rest, stolen_elements, locals =>
      if owner = caller_id then stealGo caller_id max_steal rest stolen_elements locals
      else
        match locals.find? (fun q => q.owner_id == owner) with
        | none => stealGo caller_id max_steal rest stolen_elements locals
        | some victim =>
            let stolen : Nat := 0
            let r := victim.steal stolen_elements max_steal
            let locals2 := locals.map (fun q => if q.owner_id == owner then r.2.1 else q)
            if stolen > 0 then
              -- Unreachable: `stolen` is the permanently-zero outer counter.
              -- Here the source would pop and return `stolen_elements.top()`
              -- and spill the remainder into the caller-local heap.
              (pqTop r.2.2, pqPop r.2.2, locals2)
            else
              stealGo caller_id max_steal rest r.2.2 locals2

/-- `HierarchicalPriorityQueue::steal_from_others` (part_004 lines
817-881): snapshot the non-empty list, run the candidate loop, and return
its result; the temporary heap of stolen elements is a local variable and
is destroyed on return. -/
def HierarchicalPriorityQueue.steal_from_others (max_steal : Nat)
    (s : HierarchicalPriorityQueue) : Option Nat × HierarchicalPriorityQueue :=
  if s.non_empty_ids = [] then (none, s)
  else
    let r := stealGo s.caller_id max_steal s.non_empty_ids [] s.locals
    (r.1, { s with locals := r.2.2 })

/-- `HierarchicalPriorityQueue::try_pop` (part_004 lines 620-649): first
the caller-local heap, then the global heap, then stealing. -/
def HierarchicalPriorityQueue.try_pop (max_steal : Nat)
    (s : HierarchicalPriorityQueue) : Option Nat × HierarchicalPriorityQueue :=
  let tier23 : HierarchicalPriorityQueue → Option Nat × HierarchicalPriorityQueue :=
    fun s1 =>
      if s1.global_queue.isEmpty then
        HierarchicalPriorityQueue.steal_from_others max_steal s1
      else (pqTop s1.global_queue, { s1 with global_queue := pqPop s1.global_queue })
  match s.caller_local with
  | none => tier23 s
  | some lq =>
      if lq.is_non_empty = true then
        let r := lq.try_pop
        match r.1 with
        | some v =>
            let s1 := { s with caller_local := some r.2 }
            if r.2.is_non_empty = false then
              (some v, { s1 with non_empty_ids := s1.non_empty_ids.erase s.caller_id })
            else (some v, s1)
        | none => tier23 { s with caller_local := some r.2 }
      else tier23 s

/-- All elements held anywhere in the structure: caller-local heap, global
heap, and the other threads' local heaps. -/
def HierarchicalPriorityQueue.all_elems (s : HierarchicalPriorityQueue) : List Nat :=
  (match s.caller_local with
    | some lq => lq.queue
    | none => []) ++ s.global_queue ++ (s.locals.map (fun q => q.queue)).flatten

/-- Discriminator: is this result a thrown `std::invalid_argument`? -/
def isInvalidArgumentError : Except CppExc β → Bool
  | Except.error (CppExc.invalid_argument _) => true
  | _ => false

/-- The input exposing the fix-up of `parallel_prefix`: 33 one-element
sequences, so that with `hardware_concurrency = 2` the scan runs on two
blocks, under sequence concatenation (associative, with the empty sequence
as identity, not commutative). -/
def c1_input : List (List Nat) :=
  (List.range 33).map (fun i => [i])

/-! # Theorems -/

theorem comp_irrefl (comp : α → α → Bool)
    (asymm : ∀ a b, comp a b = true → comp b a = false) (x : α) :
    comp x x = false := by
  by_cases h : comp x x = true
  · exact asymm x x h
  · simpa using h

theorem merge_perm (comp : α → α → Bool) (ls rs : List α) :
    List.Perm (merge comp ls rs) (ls ++ rs) := by
  induction ls, rs using merge.induct comp with
  | case1 ys => simp [merge]
  | case2 xs => simp [merge]
  | case3 x xs y ys h ih =>
      simp only [merge, h, if_true]
      exact List.Perm.cons x ih
  | case4 x xs y ys h ih =>
      simp only [merge, h, if_false]
      exact (List.Perm.cons y ih).trans List.perm_middle.symm

theorem merge_sort_perm (comp : α → α → Bool) (l : List α) :
    List.Perm ( merge_sort comp l) l := by
  have key : ∀ n (l : List α), l.length ≤ n → List.Perm ( merge_sort comp l) l := by
    intro n
    induction n with
    | zero =>
        intro l h
        have : l.length ≤ 1 := by omega
        rw [merge_sort, if_pos this]
    | succ n ih =>
        intro l h
        by_cases h1 : l.length ≤ 1
        · rw [merge_sort, if_pos h1]
        · rw [merge_sort, if_neg h1]
          have htk : (l.take (l.length / 2)).length ≤ n := by
            simp only [List.length_take]; omega
          have hdr : (l.drop (l.length / 2)).length ≤ n := by
            simp only [List.length_drop]; omega
          refine (merge_perm comp _ _).trans ?_
          exact (List.Perm.append (ih _ htk) (ih _ hdr)).trans
            (by rw [List.take_append_drop])
  exact key l.length l le_rfl

theorem mem_merge (comp : α → α → Bool) {z : α} {ls rs : List α} :
    z ∈ merge comp ls rs ↔ z ∈ ls ∨ z ∈ rs := by
  rw [(merge_perm comp ls rs).mem_iff, List.mem_append]

theorem merge_pairwise (comp : α → α → Bool)
    (asymm : ∀ a b, comp a b = true → comp b a = false)
    (letr : ∀ a b c, comp b a = false → comp c b = false → comp c a = false)
    (ls rs : List α)
    (hl : List.Pairwise (fun a b => comp b a = false) ls)
    (hr : List.Pairwise (fun a b => comp b a = false) rs) :
    List.Pairwise (fun a b => comp b a = false) (merge comp ls rs) := by
  induction ls, rs using merge.induct comp with
  | case1 ys => simpa [merge] using hr
  | case2 xs => simpa [merge] using hl
  | case3 x xs y ys h ih =>
      rw [List.pairwise_cons] at hl
      rw [List.pairwise_cons] at hr
      simp only [merge, h, if_true]
      rw [List.pairwise_cons]
      constructor
      · intro z hz
        rcases (mem_merge comp).mp hz with hz1 | hz2
        · exact hl.1 z hz1
        · rcases List.mem_cons.mp hz2 with rfl | hz3
          · exact h
          · exact letr x y z h (hr.1 z hz3)
      · exact ih hl.2 (List.pairwise_cons.mpr hr)
  | case4 x xs y ys h ih =>
      have hyx : comp y x = true := by
        cases hcase : comp y x
        · exact absurd hcase h
        · rfl
      have hxy : comp x y = false := asymm y x hyx
      rw [List.pairwise_cons] at hl
      rw [List.pairwise_cons] at hr
      have hcond : ¬ (true = false) := by simp
      simp only [merge, hyx, if_neg hcond]
      rw [List.pairwise_cons]
      constructor
      · intro z hz
        rcases (mem_merge comp).mp hz with hz1 | hz2
        · rcases List.mem_cons.mp hz1 with rfl | hz3
          · exact hxy
          · exact letr y x z hxy (hl.1 z hz3)
        · exact hr.1 z hz2
      · exact ih (List.pairwise_cons.mpr hl) hr.2

theorem merge_sort_pairwise (comp : α → α → Bool)
    (asymm : ∀ a b, comp a b = true → comp b a = false)
    (letr : ∀ a b c, comp b a = false → comp c b = false → comp c a = false)
    (l : List α) :
    List.Pairwise (fun a b => comp b a = false) ( merge_sort comp l) := by
  have key : ∀ n (l : List α), l.length ≤ n →
      List.Pairwise (fun a b => comp b a = false) ( merge_sort comp l) := by
    intro n
    induction n with
    | zero =>
        intro l h
        have h0 : l.length ≤ 1 := by omega
        rw [merge_sort, if_pos h0]
        match l, h with
        | [], _ => exact List.Pairwise.nil
    | succ n ih =>
        intro l h
        by_cases h1 : l.length ≤ 1
        · rw [merge_sort, if_pos h1]
          match l, h1 with
          | [], _ => exact List.Pairwise.nil
          | [a], _ => exact List.pairwise_singleton _ a
        · rw [merge_sort, if_neg h1]
          have htk : (l.take (l.length / 2)).length ≤ n := by
            simp only [List.length_take]; omega
          have hdr : (l.drop (l.length / 2)).length ≤ n := by
            simp only [List.length_drop]; omega
          exact merge_pairwise comp asymm letr _ _ (ih _ htk) (ih _ hdr)
  exact key l.length l le_rfl

theorem merge_filter (comp : α → α → Bool)
    (asymm : ∀ a b, comp a b = true → comp b a = false)
    (letr : ∀ a b c, comp b a = false → comp c b = false → comp c a = false)
    (x0 : α) (ls rs : List α)
    (hl : List.Pairwise (fun a b => comp b a = false) ls) :
    (merge comp ls rs).filter (fun y => eqvB comp y x0) =
      ls.filter (fun y => eqvB comp y x0) ++ rs.filter (fun y => eqvB comp y x0) := by
  induction ls, rs using merge.induct comp with
  | case1 ys => simp [merge]
  | case2 xs => simp [merge]
  | case3 x xs y ys h ih =>
      rw [List.pairwise_cons] at hl
      simp only [merge, h, if_true, List.filter_cons]
      rw [ih hl.2]
      cases hpx : eqvB comp x x0 <;> simp [List.filter_cons]
  | case4 x xs y ys h ih =>
      have hyx : comp y x = true := by
        cases hcase : comp y x
        · exact absurd hcase h
        · rfl
      have hcond : ¬ (true = false) := by simp
      have expand : merge comp (x :: xs) (y :: ys) = y :: merge comp (x :: xs) ys := by
        simp only [merge, hyx, if_neg hcond]
      rw [expand, List.filter_cons, ih hl]
      cases hpy : eqvB comp y x0
      · simp [List.filter_cons, hpy]
      · have hkill : ∀ z ∈ x :: xs, eqvB comp z x0 = false := by
          intro z hz
          have hxz : comp z x = false := by
            rcases List.mem_cons.mp hz with rfl | hz2
            · exact comp_irrefl comp asymm z
            · exact (List.pairwise_cons.mp hl).1 z hz2
          by_contra hzc
          have hzt : eqvB comp z x0 = true := by
            cases hcc : eqvB comp z x0
            · exact absurd hcc hzc
            · rfl
          simp only [eqvB, Bool.and_eq_true, Bool.not_eq_true'] at hzt
          have hpy2 := hpy
          simp only [eqvB, Bool.and_eq_true, Bool.not_eq_true'] at hpy2
          have hzy : comp y z = false := letr z x0 y hzt.2 hpy2.1
          have hxy2 : comp y x = false := letr x z y hxz hzy
          rw [hxy2] at hyx
          exact Bool.false_ne_true hyx
        have hx0 : eqvB comp x x0 = false := hkill x (List.mem_cons_self x xs)
        have hnil2 : xs.filter (fun y => eqvB comp y x0) = [] :=
          List.filter_eq_nil_iff.mpr (by
            intro z hz
            simp [hkill z (List.mem_cons_of_mem _ hz)])
        simp [List.filter_cons, hpy, hx0, hnil2]

theorem merge_sort_filter (comp : α → α → Bool)
    (asymm : ∀ a b, comp a b = true → comp b a = false)
    (letr : ∀ a b c, comp b a = false → comp c b = false → comp c a = false)
    (l : List α) (x0 : α) :
    ( merge_sort comp l).filter (fun y => eqvB comp y x0) =
      l.filter (fun y => eqvB comp y x0) := by
  have key : ∀ n (l : List α), l.length ≤ n →
      ( merge_sort comp l).filter (fun y => eqvB comp y x0) =
        l.filter (fun y => eqvB comp y x0) := by
    intro n
    induction n with
    | zero =>
        intro l h
        have h0 : l.length ≤ 1 := by omega
        rw [merge_sort, if_pos h0]
    | succ n ih =>
        intro l h
        by_cases h1 : l.length ≤ 1
        · rw [merge_sort, if_pos h1]
        · rw [merge_sort, if_neg h1]
          have htk : (l.take (l.length / 2)).length ≤ n := by
            simp only [List.length_take]; omega
          have hdr : (l.drop (l.length / 2)).length ≤ n := by
            simp only [List.length_drop]; omega
          rw [merge_filter comp asymm letr x0 _ _
            (merge_sort_pairwise comp asymm letr _)]
          rw [ih _ htk, ih _ hdr, ← List.filter_append, List.take_append_drop]
  exact key l.length l le_rfl

/-- C1: the spec claims the prefix-scan functions agree — for an
associative operator, `parallel_prefix` should return exactly the
sequential scan.  On 33 one-element sequences under concatenation
(associative, identity = empty sequence) with `hardware_concurrency = 2`,
the fix-up `op(block.data[j], prev_offset)` of prefix_sum.h line 149-151
applies the offset on the wrong side and the results differ. -/
theorem C1_parallel_prefix_fixup_mismatch :
     parallel_prefix 2 c1_input (fun a b => a ++ b) [] ≠
      sequential_prefix c1_input (fun a b => a ++ b) [] := by decide

/-- C2: the spec claims both `parallel_accumulate` overloads equal the
sequential left fold `my_accumulate`.  On `[1..10]` with `init = 5` under
addition the main overload hits its `results.size() == 1` early return and
answers 55 where the sequential fold answers 60 (it drops `init`); the
`num_threads` overload seeds each block with `T() = 0`, so the product of
`[2, 3]` with `init = 1` comes out 0 instead of 6. -/
theorem C2_parallel_accumulate_mismatch :
     parallel_accumulate 4 [1, 2, 3, 4, 5, 6, 7, 8, 9, 10] 5 Nat.add 0 = 55 ∧
     my_accumulate [1, 2, 3, 4, 5, 6, 7, 8, 9, 10] 5 Nat.add = 60 ∧
     parallel_accumulate_threads 1 4 [2, 3] 1 Nat.mul 0 = 0 ∧
     my_accumulate [2, 3] 1 Nat.mul = 6 := by decide

/-- C3: for every list and every strict-weak-order comparator (asymmetry
and negative transitivity as hypotheses), `merge_sort` returns a sorted
permutation of its input, `merge_sort_serial` computes the same list, and
the sort is stable: restricting the output to any equivalence class of the
comparator reproduces the input order of that class, because `merge` takes
from the left run on ties. -/
theorem C3_merge_sort_sorted_stable_perm (comp : α → α → Bool)
    (asymm : ∀ a b, comp a b = true → comp b a = false)
    (letr : ∀ a b c, comp b a = false → comp c b = false → comp c a = false)
    (l : List α) :
    List.Perm ( merge_sort comp l) l ∧
    List.Pairwise (fun a b => comp b a = false) ( merge_sort comp l) ∧
    merge_sort_serial comp l = merge_sort comp l ∧
    (∀ x, ( merge_sort comp l).filter (fun y => eqvB comp y x) =
      l.filter (fun y => eqvB comp y x)) :=
  ⟨merge_sort_perm comp l, merge_sort_pairwise comp asymm letr l, rfl,
    fun x => merge_sort_filter comp asymm letr l x⟩

/-- C3 witness: the strict weak order `a < b` on `Fin 3` applied to the
concrete list `[2, 0, 1, 1, 0]`. -/
theorem C3_merge_sort_sorted_stable_perm_witness :
    List.Perm ( merge_sort (fun a b : Fin 3 => decide (a < b)) [2, 0, 1, 1, 0]) [2, 0, 1, 1, 0] ∧
    List.Pairwise (fun a b : Fin 3 => decide (b < a) = false)
      ( merge_sort (fun a b : Fin 3 => decide (a < b)) [2, 0, 1, 1, 0]) ∧
    merge_sort_serial (fun a b : Fin 3 => decide (a < b)) [2, 0, 1, 1, 0] =
      merge_sort (fun a b : Fin 3 => decide (a < b)) [2, 0, 1, 1, 0] ∧
    (∀ x, ( merge_sort (fun a b : Fin 3 => decide (a < b)) [2, 0, 1, 1, 0]).filter
        (fun y => eqvB (fun a b : Fin 3 => decide (a < b)) y x) =
      ([2, 0, 1, 1, 0] : List (Fin 3)).filter
        (fun y => eqvB (fun a b : Fin 3 => decide (a < b)) y x)) :=
  C3_merge_sort_sorted_stable_perm (fun a b : Fin 3 => decide (a < b))
    (by decide) (by decide) [2, 0, 1, 1, 0]

/-- C4: the spec claims every linked-FIFO operation keeps the invariant
`head→next == null ⇒ tail == head`.  After `push(7)` followed by
`try_pop(T&)` the queue is empty (`head→next == null`) yet `tail_` still
holds the id of the node that was just unlinked and freed, because the
`try_pop(T&)` overload (threadsafe_linked_queue.h lines 70-89) never
resets `tail_`. -/
theorem C4_linked_try_pop_ref_dangling_tail :
    ((((LinkedQueue.init Nat).push 7).try_pop_ref 0).2.2).nodes = [] ∧
    ((((LinkedQueue.init Nat).push 7).try_pop_ref 0).2.2).tailId = 1 ∧
    ¬ LinkedQueue.invariant ((((LinkedQueue.init Nat).push 7).try_pop_ref 0).2.2) := by
  refine ⟨rfl, rfl, ?_⟩
  intro h
  exact absurd (h rfl) (by decide)

/-- C5: `try_batch_pop` (and `batch_pop` / `batch_pop_for` once their wait
ends, which perform the identical extraction) removes and returns exactly
`min(size, max_batch_size)` elements from the front in order, leaving the
remainder in order; on an empty buffer the returned vector is empty (its
length is `min 0 _ = 0`). -/
theorem C5_batch_pop_takes_front (α : Type) (s : BatchQueue α) (w : Nat) :
    s.try_batch_pop.1.length = min s.buffer.length s.max_batch_size ∧
    s.try_batch_pop.1 ++ s.try_batch_pop.2.buffer = s.buffer ∧
    s.batch_pop = s.try_batch_pop ∧
    s.batch_pop_for w = s.try_batch_pop := by
  refine ⟨?_, ?_, rfl, rfl⟩
  · unfold BatchQueue.try_batch_pop BatchQueue.extract_batch
    by_cases h : s.buffer.isEmpty
    · rw [if_pos h]
      have hb : s.buffer = [] := by simpa [List.isEmpty_iff] using h
      simp [hb]
    · rw [if_neg h]
      simp only [List.length_take]
      omega
  · unfold BatchQueue.try_batch_pop BatchQueue.extract_batch
    by_cases h : s.buffer.isEmpty
    · rw [if_pos h]
      simp
    · rw [if_neg h]
      exact List.take_append_drop _ _

/-- C6 counterexample: a segment with `SEGMENT_SIZE = 4` holding 3
elements (start = 0, end = 3) holds fewer than `SEG_SIZE` elements, yet
`Segment::push` returns `false`: the ring keeps one slot free, so capacity
is `SEG_SIZE - 1`, not `SEG_SIZE`. -/
theorem C6_segment_push_full_below_seg_size :
    ((⟨4, fun _ => 0, 0, 3⟩ : Segment Nat).push 9).1 = false ∧
    (⟨4, fun _ => 0, 0, 3⟩ : Segment Nat).size = 3 ∧
    (⟨4, fun _ => 0, 0, 3⟩ : Segment Nat).size < 4 := by decide

/-- C6 amended: with in-range cursors, a segment holds at most
`SEG_SIZE - 1` elements; `Segment::push` succeeds exactly when the segment
holds fewer than `SEG_SIZE - 1` elements and fails exactly when it holds
`SEG_SIZE - 1` (the ring reserves one slot to tell full from empty). -/
theorem C6_segment_push_iff_size_lt_capacity (α : Type) (s : Segment α) (v : α)
    (h1 : s.start < s.segment_size) (h2 : s.endIdx < s.segment_size) :
    s.size ≤ s.segment_size - 1 ∧
    ((s.push v).1 = true ↔ s.size < s.segment_size - 1) ∧
    ((s.push v).1 = false ↔ s.size = s.segment_size - 1) := by
  have hpush : (s.push v).1 = !s.fullb := by
    by_cases hf : s.fullb <;> simp [Segment.push, hf]
  have hfull_iff : s.fullb = true ↔ s.size = s.segment_size - 1 := by
    unfold Segment.fullb Segment.size
    rw [beq_iff_eq]
    rcases Nat.lt_or_ge (s.endIdx + 1) s.segment_size with hlt | hge
    · rw [Nat.mod_eq_of_lt hlt]
      split_ifs <;> omega
    · have hEq : s.endIdx + 1 = s.segment_size := by omega
      rw [hEq, Nat.mod_self]
      split_ifs <;> omega
  have hsz : s.size ≤ s.segment_size - 1 := by
    unfold Segment.size
    split_ifs <;> omega
  refine ⟨hsz, ?_, ?_⟩
  · rw [hpush, Bool.not_eq_true']
    constructor
    · intro hf
      have hne : ¬ s.size = s.segment_size - 1 := fun hc => by
        have hcontra := hfull_iff.mpr hc
        rw [hf] at hcontra
        exact Bool.false_ne_true hcontra
      omega
    · intro hlt
      cases hf : s.fullb
      · rfl
      · have := hfull_iff.mp hf
        omega
  · rw [hpush, Bool.not_eq_false']
    exact hfull_iff

/-- C6 witness: a segment of `SEGMENT_SIZE = 4` holding 2 elements. -/
theorem C6_segment_push_iff_size_lt_capacity_witness :
    (⟨4, fun _ => 0, 0, 2⟩ : Segment Nat).size ≤ 4 - 1 ∧
    (((⟨4, fun _ => 0, 0, 2⟩ : Segment Nat).push 9).1 = true ↔
      (⟨4, fun _ => 0, 0, 2⟩ : Segment Nat).size < 4 - 1) ∧
    (((⟨4, fun _ => 0, 0, 2⟩ : Segment Nat).push 9).1 = false ↔
      (⟨4, fun _ => 0, 0, 2⟩ : Segment Nat).size = 4 - 1) :=
  C6_segment_push_iff_size_lt_capacity Nat ⟨4, fun _ => 0, 0, 2⟩ 9
    (by decide) (by decide)

/-- C7 counterexample: `remaining_capacity()` on an unbounded priority
queue throws `std::logic_error` (the base class), not
`std::invalid_argument` — the InvalidArgument error kind of the claim. -/
theorem C7_remaining_capacity_throws_logic_error :
    (ThreadSafePriorityQueue.unbounded Nat).remaining_capacity =
      Except.error (CppExc.logic_error "Only bounded queue supports remaining_capacity()") ∧
    isInvalidArgumentError (ThreadSafePriorityQueue.unbounded Nat).remaining_capacity = false :=
  ⟨rfl, rfl⟩

/-- C7 amended: on every unbounded queue, `remaining_capacity()` fails by
throwing `std::logic_error` with this message. -/
theorem C7_remaining_capacity_unbounded_logic_error (α : Type)
    (s : ThreadSafePriorityQueue α) (h : s.is_bounded = false) :
    s.remaining_capacity =
      Except.error (CppExc.logic_error "Only bounded queue supports remaining_capacity()") := by
  unfold ThreadSafePriorityQueue.remaining_capacity
  rw [if_pos h]

/-- C7 witness: the default-constructed (unbounded) queue. -/
theorem C7_remaining_capacity_unbounded_logic_error_witness :
    (ThreadSafePriorityQueue.unbounded Nat).remaining_capacity =
      Except.error (CppExc.logic_error "Only bounded queue supports remaining_capacity()") :=
  C7_remaining_capacity_unbounded_logic_error Nat (ThreadSafePriorityQueue.unbounded Nat) rfl

/-- C8: both bounded constructors — `BoundedThreadSafeQueue(0)` and the
bounded `ThreadSafePriorityQueue(0)` — throw `std::invalid_argument`, and
construction succeeds for every `max_size > 0`. -/
theorem C8_construct_zero_invalid_argument (α : Type) (m : Nat) (h : 0 < m) :
    BoundedThreadSafeQueue.construct α 0 =
      Except.error (CppExc.invalid_argument "Max size must be greater than 0") ∧
    ThreadSafePriorityQueue.construct_bounded α 0 =
      Except.error (CppExc.invalid_argument "Bounded queue must have max_size > 0") ∧
    exceptIsOk (BoundedThreadSafeQueue.construct α m) = true ∧
    exceptIsOk (ThreadSafePriorityQueue.construct_bounded α m) = true := by
  have hm : ¬ m = 0 := by omega
  refine ⟨rfl, rfl, ?_, ?_⟩
  · simp [BoundedThreadSafeQueue.construct, hm, exceptIsOk]
  · simp [ThreadSafePriorityQueue.construct_bounded, hm, exceptIsOk]

/-- C8 witness: capacity 2. -/
theorem C8_construct_zero_invalid_argument_witness :
    BoundedThreadSafeQueue.construct Nat 0 =
      Except.error (CppExc.invalid_argument "Max size must be greater than 0") ∧
    ThreadSafePriorityQueue.construct_bounded Nat 0 =
      Except.error (CppExc.invalid_argument "Bounded queue must have max_size > 0") ∧
    exceptIsOk (BoundedThreadSafeQueue.construct Nat 2) = true ∧
    exceptIsOk (ThreadSafePriorityQueue.construct_bounded Nat 2) = true :=
  C8_construct_zero_invalid_argument Nat 2 (by decide)

/-- C9: the spec claims every enqueued element is returned by a pop
exactly once.  With the caller (thread 0) holding an empty local heap, an
empty global heap, and thread 1 holding one element 5 registered in the
non-empty list, `try_pop` reaches `steal_from_others`, which removes 5
from the victim heap into the local temporary `stolen_elements` and then
discards it — the outer `stolen` counter (part_004 line 841) is shadowed
by the inner declaration at line 845, so the success branch never runs.
The pop returns nothing and the element is gone from the whole structure:
it can never be returned by any pop. -/
theorem C9_steal_from_others_loses_elements :
    ( HierarchicalPriorityQueue.try_pop 10
        ⟨0, some ⟨0, [], false⟩, [], [⟨1, [5], true⟩], [1]⟩).1 = none ∧
    ( HierarchicalPriorityQueue.try_pop 10
        ⟨0, some ⟨0, [], false⟩, [], [⟨1, [5], true⟩], [1]⟩).2.all_elems = [] ∧
    HierarchicalPriorityQueue.all_elems
      ⟨0, some ⟨0, [], false⟩, [], [⟨1, [5], true⟩], [1]⟩ = [5] := by
  decide

/-- C10: on an empty queue, the bool-returning `try_pop(out)` of the
coarse FIFO, the bounded wrapper, and the linked FIFO returns `false`,
leaves the out-parameter unmodified, and leaves the queue unchanged. -/
theorem C10_try_pop_ref_empty_unchanged (α : Type) (c : CoarseQueue α)
    (b : BoundedThreadSafeQueue α) (lq : LinkedQueue α) (out : α)
    (hc : c.queue = []) (hb : b.current_size = 0) (hl : lq.nodes = []) :
    c.try_pop_ref out = (false, out, c) ∧
    b.try_pop_ref out = (false, out, b) ∧
    lq.try_pop_ref out = (false, out, lq) := by
  refine ⟨?_, ?_, ?_⟩
  · obtain ⟨q⟩ := c
    simp only at hc
    subst hc
    rfl
  · unfold BoundedThreadSafeQueue.try_pop_ref
    rw [if_pos hb]
  · obtain ⟨nodes, tailId, nextId⟩ := lq
    simp only at hl
    subst hl
    rfl

/-- C10 witness: concrete empty instances of the three queues with
out-parameter 42. -/
theorem C10_try_pop_ref_empty_unchanged_witness :
    CoarseQueue.try_pop_ref ⟨[]⟩ 42 = (false, 42, (⟨[]⟩ : CoarseQueue Nat)) ∧
    BoundedThreadSafeQueue.try_pop_ref ⟨[], 3, 0⟩ 42 =
      (false, 42, (⟨[], 3, 0⟩ : BoundedThreadSafeQueue Nat)) ∧
    LinkedQueue.try_pop_ref (LinkedQueue.init Nat) 42 =
      (false, 42, LinkedQueue.init Nat) :=
  C10_try_pop_ref_empty_unchanged Nat ⟨[]⟩ ⟨[], 3, 0⟩ (LinkedQueue.init Nat) 42
    rfl rfl rfl
